import Mathlib

/-!
# ExtIO protocol header `LC_ExtIO_Types.h`

A shallow embedding of the ExtIO plugin interface header: the enumerations
with their wire values, the `EXTIO_STATUS_CHANGE` macro, the capability
maxima, the sample formats documented for the hardware types and status
codes, and the documented call sequence of a session.
-/

namespace ExtIO

/-! ## Enumerations -/

/-- The `extHWtypeT` enumeration: hwtype codes to be set with `pfnInitHW`. -/
inductive extHWtypeT
  | exthwNone
  | exthwSDR14
  | exthwSDRX
  | exthwUSBdata16
  | exthwSCdata
  | exthwUSBdata24
  | exthwUSBdata32
  | exthwUSBfloat32
  | exthwHPSDR
  | exthwUSBdataU8
  | exthwUSBdataS8
  | exthwFullPCM32
  deriving DecidableEq

/-- The integer value of each `extHWtypeT` enumerator. -/
def extHWtypeT.toInt : extHWtypeT → Int
  | .exthwNone => 0
  | .exthwSDR14 => 1
  | .exthwSDRX => 2
  | .exthwUSBdata16 => 3
  | .exthwSCdata => 4
  | .exthwUSBdata24 => 5
  | .exthwUSBdata32 => 6
  | .exthwUSBfloat32 => 7
  | .exthwHPSDR => 8
  | .exthwUSBdataU8 => 9
  | .exthwUSBdataS8 => 10
  | .exthwFullPCM32 => 11

/-- The enumerators of `extHWtypeT`, in declaration order. -/
def extHWtypeT.all : List extHWtypeT :=
  [.exthwNone, .exthwSDR14, .exthwSDRX, .exthwUSBdata16, .exthwSCdata, .exthwUSBdata24,
   .exthwUSBdata32, .exthwUSBfloat32, .exthwHPSDR, .exthwUSBdataU8, .exthwUSBdataS8,
   .exthwFullPCM32]

/-- The `extHWstatusT` enumeration: status codes for `pfnExtIOCallback`, used when `cnt < 0`.
The constructors stand in the order of the declaration (146 and 147 before 131). -/
inductive extHWstatusT
  | extHw_Disconnected
  | extHw_READY
  | extHw_RUNNING
  | extHw_ERROR
  | extHw_OVERLOAD
  | extHw_Changed_SampleRate
  | extHw_Changed_LO
  | extHw_Lock_LO
  | extHw_Unlock_LO
  | extHw_Changed_LO_Not_TUNE
  | extHw_Changed_TUNE
  | extHw_Changed_MODE
  | extHw_Start
  | extHw_Stop
  | extHw_Changed_FILTER
  | extHw_Mercury_DAC_ON
  | extHw_Mercury_DAC_OFF
  | extHw_PC_Audio_ON
  | extHw_PC_Audio_OFF
  | extHw_Audio_MUTE_ON
  | extHw_Audio_MUTE_OFF
  | extHw_RX_SwapIQ_ON
  | extHw_RX_SwapIQ_OFF
  | extHw_TX_SwapIQ_ON
  | extHw_TX_SwapIQ_OFF
  | extHw_TX_Request
  | extHw_RX_Request
  | extHw_CW_Pressed
  | extHw_CW_Released
  | extHw_PTT_as_CWkey
  | extHw_Changed_ATT
  | extHw_SampleFormat_PCMU8
  | extHw_SampleFormat_PCM16
  | extHw_SampleFormat_PCM24
  | extHw_SampleFormat_PCM2432
  | extHw_SampleFormat_FLT32
  | extHw_SampleFormat_PCMS8
  | extHw_SampleFormat_PCM32
  | extHw_RX_ChanMode_LEFT
  | extHw_RX_ChanMode_RIGHT
  | extHw_RX_ChanMode_SUM_LR
  | extHw_RX_ChanMode_I_Q
  | extHw_RX_ChanMode_Q_I
  | extHw_Changed_RF_IF
  | extHw_Changed_SRATES
  | extHw_Changed_PRESEL
  | extHw_Changed_PRESELS
  | extHw_Changed_AGC
  | extHw_Changed_AGCS
  | extHw_Changed_SETTINGS
  | extHw_Changed_FREQRANGES
  | extHw_Changed_VFO
  | extHw_Changed_MGC
  | extHw_MSG_ERRDLG
  | extHw_MSG_ERROR
  | extHw_MSG_WARNING
  | extHw_MSG_LOG
  | extHw_MSG_DEBUG
  deriving DecidableEq

/-- The integer value of each `extHWstatusT` enumerator. -/
def extHWstatusT.toInt : extHWstatusT → Int
  | .extHw_Disconnected => 0
  | .extHw_READY => 1
  | .extHw_RUNNING => 2
  | .extHw_ERROR => 3
  | .extHw_OVERLOAD => 4
  | .extHw_Changed_SampleRate => 100
  | .extHw_Changed_LO => 101
  | .extHw_Lock_LO => 102
  | .extHw_Unlock_LO => 103
  | .extHw_Changed_LO_Not_TUNE => 104
  | .extHw_Changed_TUNE => 105
  | .extHw_Changed_MODE => 106
  | .extHw_Start => 107
  | .extHw_Stop => 108
  | .extHw_Changed_FILTER => 109
  | .extHw_Mercury_DAC_ON => 110
  | .extHw_Mercury_DAC_OFF => 111
  | .extHw_PC_Audio_ON => 112
  | .extHw_PC_Audio_OFF => 113
  | .extHw_Audio_MUTE_ON => 114
  | .extHw_Audio_MUTE_OFF => 115
  | .extHw_RX_SwapIQ_ON => 116
  | .extHw_RX_SwapIQ_OFF => 117
  | .extHw_TX_SwapIQ_ON => 118
  | .extHw_TX_SwapIQ_OFF => 119
  | .extHw_TX_Request => 120
  | .extHw_RX_Request => 121
  | .extHw_CW_Pressed => 122
  | .extHw_CW_Released => 123
  | .extHw_PTT_as_CWkey => 124
  | .extHw_Changed_ATT => 125
  | .extHw_SampleFormat_PCMU8 => 126
  | .extHw_SampleFormat_PCM16 => 127
  | .extHw_SampleFormat_PCM24 => 128
  | .extHw_SampleFormat_PCM2432 => 129
  | .extHw_SampleFormat_FLT32 => 130
  | .extHw_SampleFormat_PCMS8 => 146
  | .extHw_SampleFormat_PCM32 => 147
  | .extHw_RX_ChanMode_LEFT => 131
  | .extHw_RX_ChanMode_RIGHT => 132
  | .extHw_RX_ChanMode_SUM_LR => 133
  | .extHw_RX_ChanMode_I_Q => 134
  | .extHw_RX_ChanMode_Q_I => 135
  | .extHw_Changed_RF_IF => 136
  | .extHw_Changed_SRATES => 137
  | .extHw_Changed_PRESEL => 138
  | .extHw_Changed_PRESELS => 139
  | .extHw_Changed_AGC => 140
  | .extHw_Changed_AGCS => 141
  | .extHw_Changed_SETTINGS => 142
  | .extHw_Changed_FREQRANGES => 143
  | .extHw_Changed_VFO => 144
  | .extHw_Changed_MGC => 145
  | .extHw_MSG_ERRDLG => 148
  | .extHw_MSG_ERROR => 149
  | .extHw_MSG_WARNING => 150
  | .extHw_MSG_LOG => 151
  | .extHw_MSG_DEBUG => 152

/-- The enumerators of `extHWstatusT`, in declaration order. -/
def extHWstatusT.all : List extHWstatusT :=
  [.extHw_Disconnected, .extHw_READY, .extHw_RUNNING, .extHw_ERROR, .extHw_OVERLOAD,
   .extHw_Changed_SampleRate, .extHw_Changed_LO, .extHw_Lock_LO, .extHw_Unlock_LO,
   .extHw_Changed_LO_Not_TUNE, .extHw_Changed_TUNE, .extHw_Changed_MODE, .extHw_Start,
   .extHw_Stop, .extHw_Changed_FILTER, .extHw_Mercury_DAC_ON, .extHw_Mercury_DAC_OFF,
   .extHw_PC_Audio_ON, .extHw_PC_Audio_OFF, .extHw_Audio_MUTE_ON, .extHw_Audio_MUTE_OFF,
   .extHw_RX_SwapIQ_ON, .extHw_RX_SwapIQ_OFF, .extHw_TX_SwapIQ_ON, .extHw_TX_SwapIQ_OFF,
   .extHw_TX_Request, .extHw_RX_Request, .extHw_CW_Pressed, .extHw_CW_Released,
   .extHw_PTT_as_CWkey, .extHw_Changed_ATT, .extHw_SampleFormat_PCMU8,
   .extHw_SampleFormat_PCM16, .extHw_SampleFormat_PCM24, .extHw_SampleFormat_PCM2432,
   .extHw_SampleFormat_FLT32, .extHw_SampleFormat_PCMS8, .extHw_SampleFormat_PCM32,
   .extHw_RX_ChanMode_LEFT, .extHw_RX_ChanMode_RIGHT, .extHw_RX_ChanMode_SUM_LR,
   .extHw_RX_ChanMode_I_Q, .extHw_RX_ChanMode_Q_I, .extHw_Changed_RF_IF,
   .extHw_Changed_SRATES, .extHw_Changed_PRESEL, .extHw_Changed_PRESELS, .extHw_Changed_AGC,
   .extHw_Changed_AGCS, .extHw_Changed_SETTINGS, .extHw_Changed_FREQRANGES,
   .extHw_Changed_VFO, .extHw_Changed_MGC, .extHw_MSG_ERRDLG, .extHw_MSG_ERROR,
   .extHw_MSG_WARNING, .extHw_MSG_LOG, .extHw_MSG_DEBUG]

/-- Decoding of a status value: the first declared `extHWstatusT` enumerator with that value. -/
def extHWstatusT.ofInt (n : Int) : Option extHWstatusT :=
  extHWstatusT.all.find? (fun c => c.toInt == n)

/-- The `extHw_ModeRxTxT` enumeration: codes for `pfnSetModeRxTx`. -/
inductive extHw_ModeRxTxT
  | extHw_modeRX
  | extHw_modeTX
  deriving DecidableEq

/-- The integer value of each `extHw_ModeRxTxT` enumerator. -/
def extHw_ModeRxTxT.toInt : extHw_ModeRxTxT → Int
  | .extHw_modeRX => 0
  | .extHw_modeTX => 1

/-- The `extSDR_InfoT` enumeration: codes for `pfnExtIoSDRInfo`. -/
inductive extSDR_InfoT
  | extSDR_NoInfo
  | extSDR_supports_Settings
  | extSDR_supports_Atten
  | extSDR_supports_TX
  | extSDR_controls_BP
  | extSDR_supports_AGC
  | extSDR_supports_MGC
  | extSDR_supports_PCMU8
  | extSDR_supports_PCMS8
  | extSDR_supports_PCM32
  | extSDR_supports_Logging
  | extSDR_supports_SampleFormats
  deriving DecidableEq

/-- The integer value of each `extSDR_InfoT` enumerator. -/
def extSDR_InfoT.toInt : extSDR_InfoT → Int
  | .extSDR_NoInfo => 0
  | .extSDR_supports_Settings => 1
  | .extSDR_supports_Atten => 2
  | .extSDR_supports_TX => 3
  | .extSDR_controls_BP => 4
  | .extSDR_supports_AGC => 5
  | .extSDR_supports_MGC => 6
  | .extSDR_supports_PCMU8 => 7
  | .extSDR_supports_PCMS8 => 8
  | .extSDR_supports_PCM32 => 9
  | .extSDR_supports_Logging => 10
  | .extSDR_supports_SampleFormats => 11

/-- The enumerators of `extSDR_InfoT`, in declaration order. -/
def extSDR_InfoT.all : List extSDR_InfoT :=
  [.extSDR_NoInfo, .extSDR_supports_Settings, .extSDR_supports_Atten, .extSDR_supports_TX,
   .extSDR_controls_BP, .extSDR_supports_AGC, .extSDR_supports_MGC, .extSDR_supports_PCMU8,
   .extSDR_supports_PCMS8, .extSDR_supports_PCM32, .extSDR_supports_Logging,
   .extSDR_supports_SampleFormats]

/-- Decoding of an info value: the first declared `extSDR_InfoT` enumerator with that value. -/
def extSDR_InfoT.ofInt (n : Int) : Option extSDR_InfoT :=
  extSDR_InfoT.all.find? (fun c => c.toInt == n)

/-! ## The callback and the status-change macro -/

/-- An untyped data pointer (`const void *`), as an address. -/
abbrev VoidPtr := Nat

/-- The null pointer. -/
def NULL : VoidPtr := 0

/-- The arguments of one invocation of the callback
`int (*)(int cnt, int status, float IQoffs, const void *IQdata)`. -/
structure CallbackArgs where
  cnt : Int
  status : Int
  IQoffs : Float
  IQdata : VoidPtr

/-- The callback type `pfnExtIOCallback`, a function implemented by the host program:
it takes `cnt`, `status`, `IQoffs`, `IQdata`, acts on the host state `σ` and returns an `int`. -/
abbrev pfnExtIOCallback (σ : Type) := Int → Int → Float → VoidPtr → σ → Int × σ

/-- The macro `#define EXTIO_STATUS_CHANGE( CB, STATUS )   CB( -1, STATUS, 0, NULL )`. -/
def EXTIO_STATUS_CHANGE {σ : Type} (CB : pfnExtIOCallback σ) (STATUS : Int) : σ → Int × σ :=
  CB (-1) STATUS 0 NULL

/-- A callback instrumented with a record of its invocations: it behaves as `CB` on the host
state and appends the arguments of every invocation to a log. -/
def recording {σ : Type} (CB : pfnExtIOCallback σ) : pfnExtIOCallback (σ × List CallbackArgs) :=
  fun cnt status IQoffs IQdata st =>
    ((CB cnt status IQoffs IQdata st.1).1,
     ((CB cnt status IQoffs IQdata st.1).2, st.2 ++ [⟨cnt, status, IQoffs, IQdata⟩]))

/-- The text/log status codes `extHw_MSG_*`. -/
def extHWstatusT.isMSG : extHWstatusT → Bool
  | .extHw_MSG_ERRDLG => true
  | .extHw_MSG_ERROR => true
  | .extHw_MSG_WARNING => true
  | .extHw_MSG_LOG => true
  | .extHw_MSG_DEBUG => true
  | _ => false

/-- The set of `extHw_MSG_*` status codes. -/
def msgCodes : List extHWstatusT := extHWstatusT.all.filter extHWstatusT.isMSG

/-! ## Sample formats -/

/-- Kind of number stored in one sample. -/
inductive SampleKind
  | unsignedInt
  | signedInt
  | float
  deriving DecidableEq

/-- A sample encoding as the header documents it: bytes per sample, kind of number and, for
the integer formats, the documented range of values `(lo, hi)`. -/
structure SampleFormat where
  bytes : Nat
  kind : SampleKind
  range : Option (Int × Int)
  deriving DecidableEq

/-- The sample format documented for a hwtype code whose data "are returned to Winrad via the
callback device"; `none` for the other codes (`exthwNone`, `exthwSDR14`, `exthwSDRX`,
`exthwSCdata`, `exthwHPSDR`). -/
def extHWtypeT.sampleFormat : extHWtypeT → Option SampleFormat
  | .exthwUSBdata16 => some ⟨2, .signedInt, some (-2 ^ 15, 2 ^ 15 - 1)⟩
  | .exthwUSBdata24 => some ⟨3, .signedInt, some (-2 ^ 23, 2 ^ 23 - 1)⟩
  | .exthwUSBdata32 => some ⟨4, .signedInt, some (-2 ^ 23, 2 ^ 23 - 1)⟩
  | .exthwUSBfloat32 => some ⟨4, .float, none⟩
  | .exthwUSBdataU8 => some ⟨1, .unsignedInt, some (0, 255)⟩
  | .exthwUSBdataS8 => some ⟨1, .signedInt, some (-128, 127)⟩
  | .exthwFullPCM32 => some ⟨4, .signedInt, some (-2 ^ 31, 2 ^ 31 - 1)⟩
  | _ => none

/-- The sample format documented for a status code `extHw_SampleFormat_*`; `none` for the
other status codes. -/
def extHWstatusT.sampleFormat : extHWstatusT → Option SampleFormat
  | .extHw_SampleFormat_PCMU8 => some ⟨1, .unsignedInt, some (0, 255)⟩
  | .extHw_SampleFormat_PCM16 => some ⟨2, .signedInt, some (-2 ^ 15, 2 ^ 15 - 1)⟩
  | .extHw_SampleFormat_PCM24 => some ⟨3, .signedInt, some (-2 ^ 23, 2 ^ 23 - 1)⟩
  | .extHw_SampleFormat_PCM2432 => some ⟨4, .signedInt, some (-2 ^ 23, 2 ^ 23 - 1)⟩
  | .extHw_SampleFormat_FLT32 => some ⟨4, .float, none⟩
  | .extHw_SampleFormat_PCMS8 => some ⟨1, .signedInt, some (-128, 127)⟩
  | .extHw_SampleFormat_PCM32 => some ⟨4, .signedInt, some (-2 ^ 31, 2 ^ 31 - 1)⟩
  | _ => none

/-- The distinct sample formats selectable through the hwtype codes. -/
def hwtypeSampleFormats : List SampleFormat :=
  (extHWtypeT.all.filterMap extHWtypeT.sampleFormat).dedup

/-- The distinct sample formats selectable through the status codes. -/
def statusSampleFormats : List SampleFormat :=
  (extHWstatusT.all.filterMap extHWstatusT.sampleFormat).dedup

/-! ## Capability maxima and the enumeration idiom -/

/-- The constant `#define EXTIO_MAX_NAME_LEN 16`. -/
def EXTIO_MAX_NAME_LEN : Nat := 16

/-- The constant `#define EXTIO_MAX_MODEL_LEN 16`. -/
def EXTIO_MAX_MODEL_LEN : Nat := 16

/-- The constant `#define EXTIO_MAX_ATT_GAIN_VALUES 128`. -/
def EXTIO_MAX_ATT_GAIN_VALUES : Nat := 128

/-- The constant `#define EXTIO_MAX_SRATE_VALUES 32`. -/
def EXTIO_MAX_SRATE_VALUES : Nat := 32

/-- The constant `#define EXTIO_MAX_AGC_VALUES 16`. -/
def EXTIO_MAX_AGC_VALUES : Nat := 16

/-- The constant `#define EXTIO_MAX_MGC_VALUES 128`. -/
def EXTIO_MAX_MGC_VALUES : Nat := 128

/-- The number of storable settings: "idx in 0 .. 999 => NOT more than 1000 values storable!". -/
def maxSettingValues : Nat := 1000

/-- The enumerable capability families that have a fixed maximum. -/
inductive Family
  | attenuators
  | mgcs
  | srates
  | agcs
  | settings
  deriving DecidableEq

/-- The maximum enumerable count of a family. -/
def Family.maxCount : Family → Nat
  | .attenuators => EXTIO_MAX_ATT_GAIN_VALUES
  | .mgcs => EXTIO_MAX_MGC_VALUES
  | .srates => EXTIO_MAX_SRATE_VALUES
  | .agcs => EXTIO_MAX_AGC_VALUES
  | .settings => maxSettingValues

/-- Modelled from the spec: the host's enumeration loop, which the header only describes
("this functions is called with incrementing idx - until this functions returns != 0").
The getter `get idx` returns its status and the value it filled in; the loop starts at `idx`
and reads at most `fuel` entries. -/
def enumerateFrom {α : Type} (get : Int → Int × α) : Nat → Int → List (Int × α)
  | 0, _ => []
  | fuel + 1, idx =>
    if (get idx).1 = 0 then (idx, (get idx).2) :: enumerateFrom get fuel (idx + 1) else []

/-- Modelled from the spec: one enumeration pass over a family, from idx 0, bounded by the
family's maximum count. -/
def enumerate {α : Type} (fam : Family) (get : Int → Int × α) : List (Int × α) :=
  enumerateFrom get fam.maxCount 0

/-- Damping of a level under the header's sign convention ("use positive attenuation levels
if signal is amplified, negative attenuation levels if signal is attenuated"). -/
def damping (level : ℚ) : ℚ := -level

/-- Modelled from the spec: the table a plugin serves its levels from. Implementations of
`GetAttenuators` and `ExtIoGetMGCs` are not part of the header; the lists "must be organized
by specified sort order: most-damping-first and lowest-gain-first respectively", which for
both is ascending order of the level. Levels are finite float values, taken as rationals. -/
def levelTable (levels : List ℚ) : List ℚ :=
  levels.mergeSort (fun a b => decide (a ≤ b))

/-- Modelled from the spec: a paged getter over a table: status 0 and the entry for an idx
inside the table, a non-zero status otherwise. -/
def getEntry (table : List ℚ) (idx : Int) : Int × ℚ :=
  if idx < 0 then (1, 0)
  else match table[idx.toNat]? with
    | some v => (0, v)
    | none => (1, 0)

/-- Modelled from the spec: `GetAttenuators (int idx, float * attenuation)` of a plugin
whose hardware has the attenuation levels `levels`. -/
def GetAttenuators (levels : List ℚ) (idx : Int) : Int × ℚ :=
  getEntry (levelTable levels) idx

/-- Modelled from the spec: `ExtIoGetMGCs (int mgc_idx, float * gain)` of a plugin whose
hardware has the gain levels `levels`. -/
def ExtIoGetMGCs (levels : List ℚ) (mgc_idx : Int) : Int × ℚ :=
  getEntry (levelTable levels) mgc_idx

/-! ## The documented call sequence of a session -/

/-- The calls named in the header's description of a session (sequences I to V), with the
results that decide how the session goes on. `Work` stands for "SetHWLO() and many other
functions" of sequence III. -/
inductive Call
  | ExtIoSDRInfo
  | ExtIoSetSetting
  | InitHW (ok : Bool)
  | VersionInfo
  | GetAttenuators
  | ExtIoGetMGCs
  | SetCallback
  | OpenHW (ok : Bool)
  | StartHW (ret : Int)
  | Work
  | StopHW
  | ExtIoGetSetting
  | CloseHW
  deriving DecidableEq

/-- Positions in the documented call sequence: each names the step done last. -/
inductive Phase
  | begin
  | sdrInfo
  | setSetting
  | initFailed
  | initialized
  | versionInfo
  | attenuators
  | mgcs
  | callbackSet
  | openFailed
  | opened
  | started
  | stopped
  | gotSetting
  | closed
  deriving DecidableEq

/-- One call of the documented sequence. Sequence I lists, in this order, ExtIoSDRInfo
(optional), ExtIoSetSetting (optional), InitHW, VersionInfo (optional, after successful
InitHW), GetAttenuators (optional), ExtIoGetMGCs (optional), SetCallback, OpenHW; the
optional steps may be left out and the enumerating ones are called repeatedly. Then
II StartHW (a negative result "interrupts the starting process and returns to the idle
status"), III work, IV StopHW, V ExtIoGetSetting (optional) and CloseHW, which "is called
only when prior OpenHW() was successful". After `CloseHW` "processing is not started again
(with StartHW), unless OpenHW() is called again" (and the SwapIQ codes are reported "after
each OpenHW() call"): `OpenHW` is in sequence after `CloseHW`. An `InitHW` or `OpenHW` that
failed may be called again; the steps after it are listed for the successful call only. A
call out of sequence gives `none`. -/
def step : Phase → Call → Option Phase
  | .begin, .ExtIoSDRInfo => some .sdrInfo
  | .begin, .ExtIoSetSetting => some .setSetting
  | .begin, .InitHW ok => some (if ok then .initialized else .initFailed)
  | .sdrInfo, .ExtIoSDRInfo => some .sdrInfo
  | .sdrInfo, .ExtIoSetSetting => some .setSetting
  | .sdrInfo, .InitHW ok => some (if ok then .initialized else .initFailed)
  | .setSetting, .ExtIoSetSetting => some .setSetting
  | .setSetting, .InitHW ok => some (if ok then .initialized else .initFailed)
  | .initFailed, .InitHW ok => some (if ok then .initialized else .initFailed)
  | .initialized, .VersionInfo => some .versionInfo
  | .initialized, .GetAttenuators => some .attenuators
  | .initialized, .ExtIoGetMGCs => some .mgcs
  | .initialized, .SetCallback => some .callbackSet
  | .versionInfo, .GetAttenuators => some .attenuators
  | .versionInfo, .ExtIoGetMGCs => some .mgcs
  | .versionInfo, .SetCallback => some .callbackSet
  | .attenuators, .GetAttenuators => some .attenuators
  | .attenuators, .ExtIoGetMGCs => some .mgcs
  | .attenuators, .SetCallback => some .callbackSet
  | .mgcs, .ExtIoGetMGCs => some .mgcs
  | .mgcs, .SetCallback => some .callbackSet
  | .callbackSet, .OpenHW ok => some (if ok then .opened else .openFailed)
  | .openFailed, .OpenHW ok => some (if ok then .opened else .openFailed)
  | .opened, .StartHW ret => some (if ret < 0 then .opened else .started)
  | .opened, .ExtIoGetSetting => some .gotSetting
  | .opened, .CloseHW => some .closed
  | .started, .Work => some .started
  | .started, .StopHW => some .stopped
  | .stopped, .StartHW ret => some (if ret < 0 then .stopped else .started)
  | .stopped, .ExtIoGetSetting => some .gotSetting
  | .stopped, .CloseHW => some .closed
  | .gotSetting, .ExtIoGetSetting => some .gotSetting
  | .gotSetting, .CloseHW => some .closed
  | .closed, .OpenHW ok => some (if ok then .opened else .openFailed)
  | _, _ => none

/-- The position reached from `p` by a trace of calls, `none` when a call is out of sequence. -/
def run : Phase → List Call → Option Phase
  | p, [] => some p
  | p, c :: cs =>
    match step p c with
    | some q => run q cs
    | none => none

/-- A session trace follows the documented call sequence when every call of it is in
sequence, starting before any call was made. -/
def followsSequence (tr : List Call) : Bool := (run .begin tr).isSome

/-- The call is an `InitHW`, whatever its result. -/
def Call.isInitHW : Call → Bool
  | .InitHW _ => true
  | _ => false

/-- The call is one of those the header places at or before `InitHW`. -/
def Call.isInitOrEarlier : Call → Bool
  | .ExtIoSDRInfo => true
  | .ExtIoSetSetting => true
  | .InitHW _ => true
  | _ => false

/-- The call is an `OpenHW` or a `StartHW`, whatever its result. -/
def Call.isOpenOrStart : Call → Bool
  | .OpenHW _ => true
  | .StartHW _ => true
  | _ => false

/-- The call is an `OpenHW`, whatever its result. -/
def Call.isOpenHW : Call → Bool
  | .OpenHW _ => true
  | _ => false

/-- The positions of the sequence at which the hardware is not open after it was closed or
failed to open: those from which only `OpenHW` goes on. -/
def Phase.awaitsOpen : Phase → Bool
  | .closed => true
  | .openFailed => true
  | _ => false

/-- The number of `SetCallback` calls made on the way to a position of the sequence. -/
def Phase.callbacksSet : Phase → Nat
  | .begin => 0
  | .sdrInfo => 0
  | .setSetting => 0
  | .initFailed => 0
  | .initialized => 0
  | .versionInfo => 0
  | .attenuators => 0
  | .mgcs => 0
  | _ => 1

/-- The positions of the sequence at which no `InitHW` has succeeded yet. -/
def Phase.beforeInit : Phase → Bool
  | .begin => true
  | .sdrInfo => true
  | .setSetting => true
  | .initFailed => true
  | _ => false

/-! ## Start and tuning of a plugin -/

/-- The minimum number of I/Q pairs per callback invocation. -/
def minBlockPairs : Int := 512

/-- Modelled from the spec: what a plugin's `StartHW` depends on; implementations of
`StartHW` are not part of the header. The sample count of a block is "fixed for a session and
a multiple of a minimum block size": `blocks` is that multiple. -/
structure StartConfig where
  deviceReady : Bool
  blocks : Nat

/-- Modelled from the spec: `StartHW (long extLOfreq)`: "returns the fixed per-invocation
sample-block count for push-mode hardware, or a negative value signaling the host must
abort"; in the header's words the number of I/Q pairs is 512 at least, or an integer multiple
of that value, and a negative number means that an error has occurred. -/
def StartHW (cfg : StartConfig) (_extLOfreq : Int) : Int :=
  if cfg.deviceReady && decide (0 < cfg.blocks) then minBlockPairs * cfg.blocks else -1

/-- The values documented for the `status` argument of `pfnTxSamples`: 0 samples, 1 reset,
2 pause/stop (buffer underrun), 3 continue (after buffer underrun). -/
inductive TxStatus
  | txSamples
  | txReset
  | txPauseStop
  | txContinue
  deriving DecidableEq

/-- The integer value of each documented `status` of `pfnTxSamples`. -/
def TxStatus.toInt : TxStatus → Int
  | .txSamples => 0
  | .txReset => 1
  | .txPauseStop => 2
  | .txContinue => 3

/-- The documented `status` values of `pfnTxSamples`, in the order of the header. -/
def TxStatus.all : List TxStatus := [.txSamples, .txReset, .txPauseStop, .txContinue]

/-- What the header documents for the two other arguments under each status: samples come
"with numIQsamples > 0 (=512) and non-NULL pointer interleavedIQ", the three others "with
numIQsamples == 0 and interleavedIQ == NULL". -/
def TxStatus.argsOk : TxStatus → Int → VoidPtr → Bool
  | .txSamples, numIQsamples, interleavedIQ => decide (0 < numIQsamples) && interleavedIQ != NULL
  | .txReset, numIQsamples, interleavedIQ => numIQsamples == 0 && interleavedIQ == NULL
  | .txPauseStop, numIQsamples, interleavedIQ => numIQsamples == 0 && interleavedIQ == NULL
  | .txContinue, numIQsamples, interleavedIQ => numIQsamples == 0 && interleavedIQ == NULL

/-- A call `TxSamples (status, numIQsamples, interleavedIQ)` is well-formed when `status` is
a documented value and the two other arguments are as documented for it. -/
def TxSamples_wellFormed (status numIQsamples : Int) (interleavedIQ : VoidPtr) : Bool :=
  TxStatus.all.any (fun s => s.toInt == status && s.argsOk numIQsamples interleavedIQ)

/-! ## Hardware types: where the samples come from -/

/-- Where the samples of a hardware type come from. -/
inductive DataSource
  | callback
  | soundCard
  deriving DecidableEq

/-- The source of the samples the header documents for a hwtype code: "returned to Winrad via
the callback device" or "returned via the (S)ound (C)ard managed by Winrad"; `none` for the
codes the header says nothing about (`exthwNone`, `exthwSDR14`, `exthwSDRX`, `exthwHPSDR`). -/
def extHWtypeT.dataSource : extHWtypeT → Option DataSource
  | .exthwUSBdata16 => some .callback
  | .exthwSCdata => some .soundCard
  | .exthwUSBdata24 => some .callback
  | .exthwUSBdata32 => some .callback
  | .exthwUSBfloat32 => some .callback
  | .exthwUSBdataU8 => some .callback
  | .exthwUSBdataS8 => some .callback
  | .exthwFullPCM32 => some .callback
  | _ => none

/-- Decoding of a hwtype value: the first declared `extHWtypeT` enumerator with that value. -/
def extHWtypeT.ofInt (n : Int) : Option extHWtypeT :=
  extHWtypeT.all.find? (fun t => t.toInt == n)

/-- The hwtype code a status code `extHw_SampleFormat_*` refers to in its comment
("as 'exthwUSBdataU8'" and so on); `none` for the other status codes. -/
def extHWstatusT.asHwType : extHWstatusT → Option extHWtypeT
  | .extHw_SampleFormat_PCMU8 => some .exthwUSBdataU8
  | .extHw_SampleFormat_PCM16 => some .exthwUSBdata16
  | .extHw_SampleFormat_PCM24 => some .exthwUSBdata24
  | .extHw_SampleFormat_PCM2432 => some .exthwUSBdata32
  | .extHw_SampleFormat_FLT32 => some .exthwUSBfloat32
  | .extHw_SampleFormat_PCMS8 => some .exthwUSBdataS8
  | .extHw_SampleFormat_PCM32 => some .exthwFullPCM32
  | _ => none

/-- The status codes `extHw_SampleFormat_*`, in declaration order. -/
def sampleFormatCodes : List extHWstatusT :=
  extHWstatusT.all.filter (fun c => c.sampleFormat.isSome)

/-- The hwtype codes whose samples come through the callback, in declaration order. -/
def callbackHwTypes : List extHWtypeT :=
  extHWtypeT.all.filter (fun t => t.dataSource == some .callback)

/-- The full range of values of the container of a format: `bytes` bytes hold
`-2^(8*bytes-1) .. 2^(8*bytes-1)-1` as a signed and `0 .. 2^(8*bytes)-1` as an unsigned
integer; `none` for the float format. -/
def SampleFormat.containerRange (f : SampleFormat) : Option (Int × Int) :=
  match f.kind with
  | .signedInt => some (-2 ^ (8 * f.bytes - 1), 2 ^ (8 * f.bytes - 1) - 1)
  | .unsignedInt => some (0, 2 ^ (8 * f.bytes) - 1)
  | .float => none

/-! ## The version gate -/

/-- The condition the header writes for the status codes that need a host version:
`0 == strcmp(progname, "HDSDR") && ( ver_major > 2 || ( ver_major == 2 && ver_minor >= m ) )`
with `m` = 13 or 60. -/
def versionGate (m : Int) (progname : String) (ver_major ver_minor : Int) : Bool :=
  progname == "HDSDR" && (decide (ver_major > 2) || (ver_major == 2 && decide (ver_minor ≥ m)))

/-- The minor version of HDSDR 2 from which a status code is processed, for the codes whose
comment gives the condition on `VersionInfo`: 13 for the codes 116 to 125, 60 for
`extHw_Changed_MGC`; `none` for the codes without such a condition. -/
def extHWstatusT.gateMinor : extHWstatusT → Option Int
  | .extHw_RX_SwapIQ_ON => some 13
  | .extHw_RX_SwapIQ_OFF => some 13
  | .extHw_TX_SwapIQ_ON => some 13
  | .extHw_TX_SwapIQ_OFF => some 13
  | .extHw_TX_Request => some 13
  | .extHw_RX_Request => some 13
  | .extHw_CW_Pressed => some 13
  | .extHw_CW_Released => some 13
  | .extHw_PTT_as_CWkey => some 13
  | .extHw_Changed_ATT => some 13
  | .extHw_Changed_MGC => some 60
  | _ => none

/-! ## Theorems -/

/-! ### Enumerations -/

/-- Every `extHWtypeT` enumerator stands in `extHWtypeT.all`. -/
theorem extHWtypeT_mem_all (t : extHWtypeT) : t ∈ extHWtypeT.all := by
  cases t <;> decide

/-- Every `extHWstatusT` enumerator stands in `extHWstatusT.all`. -/
theorem extHWstatusT_mem_all (c : extHWstatusT) : c ∈ extHWstatusT.all := by
  cases c <;> decide

/-- C1: in `extHWstatusT` and in `extSDR_InfoT` the map from enumerator to integer value is
injective, and decoding the value of an enumerator gives that enumerator back. -/
theorem C1_enum_values_injective :
    Function.Injective extHWstatusT.toInt ∧
    Function.Injective extSDR_InfoT.toInt ∧
    (∀ c : extHWstatusT, extHWstatusT.ofInt c.toInt = some c) ∧
    (∀ c : extSDR_InfoT, extSDR_InfoT.ofInt c.toInt = some c) := by
  have h1 : ∀ c : extHWstatusT, extHWstatusT.ofInt c.toInt = some c := by
    intro c; cases c <;> rfl
  have h2 : ∀ c : extSDR_InfoT, extSDR_InfoT.ofInt c.toInt = some c := by
    intro c; cases c <;> rfl
  refine ⟨?_, ?_, h1, h2⟩
  · intro a b hab
    have := h1 a
    rw [hab, h1 b] at this
    exact (Option.some.inj this).symm
  · intro a b hab
    have := h2 a
    rw [hab, h2 b] at this
    exact (Option.some.inj this).symm

/-! ### The status-change macro -/

/-- C2: `EXTIO_STATUS_CHANGE(CB, STATUS)` evaluates to the return value of `CB`, leaves the
host in the state one invocation of `CB` leaves it in, and that invocation is the only one
it adds to the record: with `cnt = -1`, `status = STATUS`, `IQoffs = 0`, `IQdata = NULL`.
The same for every status code of `extHWstatusT`, the `extHw_MSG_*` codes included. -/
theorem C2_status_change_macro {σ : Type} (CB : pfnExtIOCallback σ) (s : σ)
    (log : List CallbackArgs) :
    (∀ STATUS : Int,
      EXTIO_STATUS_CHANGE (recording CB) STATUS (s, log)
        = ((CB (-1) STATUS 0 NULL s).1,
           ((CB (-1) STATUS 0 NULL s).2,
            log ++ [{ cnt := -1, status := STATUS, IQoffs := 0, IQdata := NULL }]))) ∧
    (∀ c : extHWstatusT,
      (EXTIO_STATUS_CHANGE (recording CB) c.toInt (s, log)).2.2
        = log ++ [{ cnt := -1, status := c.toInt, IQoffs := 0, IQdata := NULL }]) ∧
    (∀ STATUS : Int, EXTIO_STATUS_CHANGE CB STATUS s = CB (-1) STATUS 0 NULL s) ∧
    ((-1 : Int) < 0 ∧ NULL = 0) := by
  refine ⟨fun _ => rfl, fun _ => rfl, fun _ => rfl, by decide, rfl⟩

/-! ### The call sequence -/

/-- Running a trace in two parts. -/
theorem run_append (xs ys : List Call) :
    ∀ p : Phase, run p (xs ++ ys) = (run p xs).bind (fun q => run q ys) := by
  induction xs with
  | nil => intro p; rfl
  | cons c cs ih =>
    intro p
    simp only [List.cons_append, run]
    cases step p c with
    | none => rfl
    | some q => exact ih q

/-- A trace in sequence that is split at a call: the part before it is in sequence, and the
call is in sequence at the position reached, and so is the rest. -/
theorem run_split {p r : Phase} {pre post : List Call} {c : Call}
    (h : run p (pre ++ c :: post) = some r) :
    ∃ q q2, run p pre = some q ∧ step q c = some q2 ∧ run q2 post = some r := by
  rw [run_append] at h
  cases hq : run p pre with
  | none => rw [hq] at h; cases h
  | some q =>
    rw [hq] at h
    simp only [Option.bind, run] at h
    cases hs : step q c with
    | none => rw [hs] at h; cases h
    | some q2 => rw [hs] at h; exact ⟨q, q2, rfl, hs, h⟩

set_option maxHeartbeats 1000000 in
/-- One call in sequence adds one to the number of `SetCallback` calls exactly when it is
`SetCallback`. -/
theorem step_callbacksSet {p q : Phase} {c : Call} (h : step p c = some q) :
    q.callbacksSet = p.callbacksSet + (if c = Call.SetCallback then 1 else 0) := by
  cases p <;> cases c <;>
    simp only [step, Option.some.injEq, reduceCtorEq] at h <;> subst h <;>
    first
      | rfl
      | (rename_i ok; cases ok <;> rfl)
      | (rename_i ret; split <;> rfl)

/-- A trace in sequence adds its number of `SetCallback` calls. -/
theorem run_callbacksSet (tr : List Call) :
    ∀ p q : Phase, run p tr = some q →
      q.callbacksSet = p.callbacksSet + tr.count Call.SetCallback := by
  induction tr with
  | nil => intro p q h; simp [run] at h; subst h; simp
  | cons c cs ih =>
    intro p q h
    simp only [run] at h
    cases hs : step p c with
    | none => rw [hs] at h; cases h
    | some p2 =>
      rw [hs] at h
      have h1 := step_callbacksSet hs
      have h2 := ih p2 q h
      rw [List.count_cons, h2, h1]
      by_cases hc : c = Call.SetCallback
      · subst hc; simp; omega
      · have hc2 : ¬ (Call.SetCallback = c) := fun e => hc e.symm
        simp [hc, hc2]

/-- An `OpenHW` or `StartHW` is in sequence only after `SetCallback`. -/
theorem step_openOrStart {p q : Phase} {c : Call} (h : step p c = some q)
    (hc : c.isOpenOrStart = true) : p.callbacksSet = 1 := by
  cases p <;> cases c <;> simp [step, Call.isOpenOrStart] at h hc <;> rfl

/-- Before a successful `InitHW` only `ExtIoSDRInfo`, `ExtIoSetSetting` and `InitHW` are in
sequence. -/
theorem step_beforeInit {p q : Phase} {c : Call} (hp : p.beforeInit = true)
    (h : step p c = some q) :
    c.isInitOrEarlier = true ∧ (c ≠ Call.InitHW true → q.beforeInit = true) := by
  cases p <;> cases c <;> simp [step, Phase.beforeInit] at h hp <;> subst h <;>
    simp [Call.isInitOrEarlier, Phase.beforeInit] <;> intro hok <;> subst hok <;> rfl

/-- A trace in sequence without a successful `InitHW` stays before initialization. -/
theorem run_beforeInit (tr : List Call) :
    ∀ p q : Phase, p.beforeInit = true → run p tr = some q →
      (∀ x ∈ tr, x ≠ Call.InitHW true) → q.beforeInit = true := by
  induction tr with
  | nil => intro p q hp h _; simp [run] at h; subst h; exact hp
  | cons c cs ih =>
    intro p q hp h hno
    simp only [run] at h
    cases hs : step p c with
    | none => rw [hs] at h; cases h
    | some p2 =>
      rw [hs] at h
      have h1 := (step_beforeInit hp hs).2 (hno c (List.mem_cons_self c cs))
      exact ih p2 q h1 h (fun x hx => hno x (List.mem_cons_of_mem c hx))

/-- A `CloseHW` in sequence leads to the closed position. -/
theorem step_close {p q : Phase} (h : step p Call.CloseHW = some q) : q = Phase.closed := by
  cases p <;> simp [step] at h <;> exact h.symm

/-- Where the hardware awaits `OpenHW`, only `OpenHW` is in sequence, and unless it succeeds
the hardware goes on awaiting it. -/
theorem step_awaitsOpen {p q : Phase} {c : Call} (hp : p.awaitsOpen = true)
    (h : step p c = some q) :
    c.isOpenHW = true ∧ (c ≠ Call.OpenHW true → q.awaitsOpen = true) := by
  cases p <;> cases c <;> simp [step, Phase.awaitsOpen] at h hp <;> subst h <;>
    simp [Call.isOpenHW, Phase.awaitsOpen] <;> intro hok <;> subst hok <;> rfl

/-- A trace in sequence without a successful `OpenHW` leaves the hardware awaiting it. -/
theorem run_awaitsOpen (tr : List Call) :
    ∀ p q : Phase, p.awaitsOpen = true → run p tr = some q →
      (∀ x ∈ tr, x ≠ Call.OpenHW true) → q.awaitsOpen = true := by
  induction tr with
  | nil => intro p q hp h _; simp [run] at h; subst h; exact hp
  | cons c cs ih =>
    intro p q hp h hno
    simp only [run] at h
    cases hs : step p c with
    | none => rw [hs] at h; cases h
    | some p2 =>
      rw [hs] at h
      have h1 := (step_awaitsOpen hp hs).2 (hno c (List.mem_cons_self c cs))
      exact ih p2 q h1 h (fun x hx => hno x (List.mem_cons_of_mem c hx))

/-! ### Start and tuning -/

/-- C3: a non-negative result of `StartHW` is at least 512 and a multiple of 512, and every
negative result aborts the start: whatever the negative value, the session stays idle, where
every non-negative value starts it. The result is negative exactly when the device is not
ready or has no block to deliver. -/
theorem C3_startHW_block_count (cfg : StartConfig) (freq : Int) :
    (0 ≤ StartHW cfg freq → 512 ≤ StartHW cfg freq ∧ StartHW cfg freq % 512 = 0) ∧
    (∀ ret : Int, ret < 0 →
      step Phase.opened (Call.StartHW ret) = some Phase.opened ∧
      step Phase.stopped (Call.StartHW ret) = some Phase.stopped) ∧
    (∀ ret : Int, 0 ≤ ret →
      step Phase.opened (Call.StartHW ret) = some Phase.started ∧
      step Phase.stopped (Call.StartHW ret) = some Phase.started) ∧
    (StartHW cfg freq < 0 ↔ ¬ (cfg.deviceReady = true ∧ 0 < cfg.blocks)) := by
  refine ⟨?_, ?_, ?_, ?_⟩
  · intro h
    unfold StartHW minBlockPairs at h ⊢
    split at h
    · rename_i hc
      rw [if_pos hc]
      simp only [Bool.and_eq_true, decide_eq_true_eq] at hc
      constructor
      · have : (1 : Int) ≤ (cfg.blocks : Int) := by exact_mod_cast hc.2
        omega
      · exact Int.mul_emod_right 512 _
    · omega
  · intro ret h
    simp [step, h]
  · intro ret h
    have : ¬ (ret < 0) := by omega
    simp [step, this]
  · unfold StartHW minBlockPairs
    by_cases hc : (cfg.deviceReady && decide (0 < cfg.blocks)) = true
    · rw [if_pos hc]
      simp only [Bool.and_eq_true, decide_eq_true_eq] at hc
      constructor
      · intro h
        have : (0 : Int) ≤ (cfg.blocks : Int) := Int.ofNat_nonneg _
        omega
      · intro h; exact absurd hc h
    · rw [if_neg hc]
      simp only [Bool.and_eq_true, decide_eq_true_eq] at hc
      constructor
      · intro _; exact hc
      · intro _; decide

/-- Witness for C3: a ready device with one block per callback, started at 14 MHz, returns
512, and the negative result -7 aborts a start. -/
theorem C3_startHW_block_count_witness :
    0 ≤ StartHW { deviceReady := true, blocks := 1 } 14000000 ∧
    StartHW { deviceReady := true, blocks := 1 } 14000000 = 512 ∧
    (512 ≤ StartHW { deviceReady := true, blocks := 1 } 14000000 ∧
      StartHW { deviceReady := true, blocks := 1 } 14000000 % 512 = 0) ∧
    ((-7 : Int) < 0 ∧ step Phase.opened (Call.StartHW (-7)) = some Phase.opened) :=
  ⟨by decide, by decide,
   (C3_startHW_block_count { deviceReady := true, blocks := 1 } 14000000).1 (by decide),
   by decide,
   ((C3_startHW_block_count { deviceReady := true, blocks := 1 } 14000000).2.1 (-7)
     (by decide)).1⟩

/-- C5, as stated, fails in both halves. In the documented sequence `ExtIoSDRInfo` and
`ExtIoSetSetting` come before `InitHW`, so a call other than `InitHW` occurs before a
successful `InitHW`; and `OpenHW` may be called again after `CloseHW`, so a call other than
`InitHW` or `CloseHW` occurs after `CloseHW`. -/
theorem C5_counterexample :
    ¬ (∀ tr : List Call, followsSequence tr = true →
        ∀ (pre post : List Call) (c : Call), tr = pre ++ c :: post →
          (∀ x ∈ pre, x ≠ Call.InitHW true) → c ≠ Call.InitHW true → c.isInitHW = true) ∧
    ¬ (∀ tr : List Call, followsSequence tr = true →
        ∀ (pre post : List Call), tr = pre ++ Call.CloseHW :: post →
          ∀ c ∈ post, c.isInitHW = true ∨ c = Call.CloseHW) := by
  constructor
  · intro h
    have h1 := h [Call.ExtIoSDRInfo, Call.ExtIoSetSetting, Call.InitHW true, Call.SetCallback,
        Call.OpenHW true, Call.StartHW 512, Call.StopHW, Call.CloseHW] (by decide)
      [Call.ExtIoSDRInfo] [Call.InitHW true, Call.SetCallback, Call.OpenHW true,
        Call.StartHW 512, Call.StopHW, Call.CloseHW] Call.ExtIoSetSetting rfl
      (by decide) (by decide)
    exact absurd h1 (by decide)
  · intro h
    have h1 := h [Call.InitHW true, Call.SetCallback, Call.OpenHW true, Call.CloseHW,
        Call.OpenHW true, Call.StartHW 512] (by decide)
      [Call.InitHW true, Call.SetCallback, Call.OpenHW true]
      [Call.OpenHW true, Call.StartHW 512] rfl (Call.OpenHW true) (by decide)
    exact absurd h1 (by decide)

/-- C5, amended: in every trace that follows the documented call sequence, a call that
occurs before a successful `InitHW` is `ExtIoSDRInfo`, `ExtIoSetSetting` or `InitHW`; the
call that follows a `CloseHW` is `OpenHW`; after a `CloseHW` no call other than `InitHW`,
`CloseHW` or `OpenHW` occurs until `OpenHW` is called again; and a `StartHW` occurs after a
`CloseHW` only when an `OpenHW` has succeeded in between. -/
theorem C5_calls_before_init_and_after_close (tr : List Call)
    (h : followsSequence tr = true) :
    (∀ (pre post : List Call) (c : Call), tr = pre ++ c :: post →
      (∀ x ∈ pre, x ≠ Call.InitHW true) → c.isInitOrEarlier = true) ∧
    (∀ (pre post : List Call) (c : Call), tr = pre ++ Call.CloseHW :: c :: post →
      c.isOpenHW = true) ∧
    (∀ (pre mid post : List Call) (c : Call),
      tr = pre ++ Call.CloseHW :: (mid ++ c :: post) →
      (∀ x ∈ mid, x.isOpenHW = false) →
        c.isInitHW = true ∨ c = Call.CloseHW ∨ c.isOpenHW = true) ∧
    (∀ (pre mid post : List Call) (ret : Int),
      tr = pre ++ Call.CloseHW :: (mid ++ Call.StartHW ret :: post) →
        Call.OpenHW true ∈ mid) := by
  obtain ⟨r, hr⟩ := Option.isSome_iff_exists.mp h
  have hnext : ∀ (pre post : List Call) (c : Call),
      tr = pre ++ Call.CloseHW :: c :: post → c.isOpenHW = true := by
    intro pre post c e
    subst e
    obtain ⟨q, q2, _, h2, h3⟩ := run_split hr
    have hq2 := step_close h2
    subst hq2
    simp only [run] at h3
    cases h5 : step Phase.closed c with
    | none => rw [h5] at h3; cases h3
    | some q3 => exact (@step_awaitsOpen Phase.closed q3 c rfl h5).1
  refine ⟨?_, hnext, ?_, ?_⟩
  · intro pre post c e hno
    subst e
    obtain ⟨q, q2, h1, h2, _⟩ := run_split hr
    exact (step_beforeInit (run_beforeInit pre Phase.begin q rfl h1 hno) h2).1
  · intro pre mid post c e hmid
    cases mid with
    | nil => exact Or.inr (Or.inr (hnext pre post c e))
    | cons x xs =>
      have hx := hnext pre (xs ++ c :: post) x e
      rw [hmid x (List.mem_cons_self x xs)] at hx
      cases hx
  · intro pre mid post ret e
    subst e
    by_contra hno
    obtain ⟨q, q2, _, h2, h3⟩ := run_split hr
    have hq2 := step_close h2
    subst hq2
    obtain ⟨q3, q4, h4, h5, _⟩ := run_split h3
    have h6 := run_awaitsOpen mid Phase.closed q3 rfl h4
      (fun x hx e => hno (e ▸ hx))
    have h7 := (step_awaitsOpen h6 h5).1
    cases h7

/-- Witness for C5: a session that is closed, opened again, started and closed. -/
theorem C5_calls_before_init_and_after_close_witness :
    followsSequence [Call.ExtIoSDRInfo, Call.ExtIoSetSetting, Call.InitHW true,
      Call.SetCallback, Call.OpenHW true, Call.StartHW 512, Call.Work, Call.StopHW,
      Call.ExtIoGetSetting, Call.CloseHW, Call.OpenHW true, Call.StartHW 512, Call.StopHW,
      Call.CloseHW] = true ∧
    Call.isInitOrEarlier Call.ExtIoSetSetting = true ∧
    Call.isOpenHW (Call.OpenHW true) = true ∧
    Call.OpenHW true ∈ [Call.OpenHW true] :=
  ⟨by decide,
   (C5_calls_before_init_and_after_close _ (by decide)).1 [Call.ExtIoSDRInfo]
     [Call.InitHW true, Call.SetCallback, Call.OpenHW true, Call.StartHW 512, Call.Work,
      Call.StopHW, Call.ExtIoGetSetting, Call.CloseHW, Call.OpenHW true, Call.StartHW 512,
      Call.StopHW, Call.CloseHW] Call.ExtIoSetSetting rfl (by decide),
   (C5_calls_before_init_and_after_close _ (by decide)).2.1
     [Call.ExtIoSDRInfo, Call.ExtIoSetSetting, Call.InitHW true, Call.SetCallback,
      Call.OpenHW true, Call.StartHW 512, Call.Work, Call.StopHW, Call.ExtIoGetSetting]
     [Call.StartHW 512, Call.StopHW, Call.CloseHW] (Call.OpenHW true) rfl,
   (C5_calls_before_init_and_after_close _ (by decide)).2.2.2
     [Call.ExtIoSDRInfo, Call.ExtIoSetSetting, Call.InitHW true, Call.SetCallback,
      Call.OpenHW true, Call.StartHW 512, Call.Work, Call.StopHW, Call.ExtIoGetSetting]
     [Call.OpenHW true] [Call.StopHW, Call.CloseHW] 512 rfl⟩

/-- C6: in every trace that follows the documented call sequence `SetCallback` is called at
most once, and exactly once before any `OpenHW` or `StartHW` of the trace. -/
theorem C6_callback_registered_before_open (tr : List Call)
    (h : followsSequence tr = true) :
    tr.count Call.SetCallback ≤ 1 ∧
    (∀ (pre post : List Call) (c : Call), tr = pre ++ c :: post →
      c.isOpenOrStart = true → pre.count Call.SetCallback = 1 ∧ Call.SetCallback ∈ pre) := by
  obtain ⟨r, hr⟩ := Option.isSome_iff_exists.mp h
  constructor
  · have h1 := run_callbacksSet tr _ r hr
    have h2 : r.callbacksSet ≤ 1 := by cases r <;> decide
    have h3 : Phase.begin.callbacksSet = 0 := rfl
    omega
  · intro pre post c e hc
    subst e
    obtain ⟨q, q2, h1, h2, _⟩ := run_split hr
    have h3 := run_callbacksSet pre _ q h1
    have h4 := step_openOrStart h2 hc
    have h5 : Phase.begin.callbacksSet = 0 := rfl
    have h6 : pre.count Call.SetCallback = 1 := by omega
    refine ⟨h6, ?_⟩
    apply List.count_pos_iff.mp
    omega

/-- Witness for C6: a session that is opened and started. -/
theorem C6_callback_registered_before_open_witness :
    followsSequence [Call.InitHW true, Call.VersionInfo, Call.SetCallback, Call.OpenHW true,
      Call.StartHW 512] = true ∧
    List.count Call.SetCallback [Call.InitHW true, Call.VersionInfo, Call.SetCallback,
      Call.OpenHW true, Call.StartHW 512] ≤ 1 ∧
    List.count Call.SetCallback [Call.InitHW true, Call.VersionInfo, Call.SetCallback] = 1 :=
  ⟨by decide,
   (C6_callback_registered_before_open _ (by decide)).1,
   ((C6_callback_registered_before_open _ (by decide)).2
     [Call.InitHW true, Call.VersionInfo, Call.SetCallback] [Call.StartHW 512]
     (Call.OpenHW true) rfl rfl).1⟩

/-! ### Enumeration of capabilities -/

/-- The enumeration loop lists only indices from its start up to its fuel. -/
theorem enumerateFrom_idx_bounds {α : Type} (get : Int → Int × α) :
    ∀ (fuel : Nat) (idx : Int) (e : Int × α),
      e ∈ enumerateFrom get fuel idx → idx ≤ e.1 ∧ e.1 < idx + fuel := by
  intro fuel
  induction fuel with
  | zero => intro idx e h; simp [enumerateFrom] at h
  | succ n ih =>
    intro idx e h
    unfold enumerateFrom at h
    split at h
    · rcases List.mem_cons.mp h with h | h
      · subst h; constructor <;> simp
      · have := ih (idx + 1) e h
        push_cast
        omega
    · simp at h

/-- The values an enumeration pass reads from a table, from position `k`: the next `fuel`
entries. -/
theorem enumerateFrom_getEntry (table : List ℚ) :
    ∀ (fuel k : Nat),
      (enumerateFrom (getEntry table) fuel (k : Int)).map Prod.snd
        = (table.drop k).take fuel := by
  intro fuel
  induction fuel with
  | zero => intro k; simp [enumerateFrom]
  | succ n ih =>
    intro k
    have hk : ¬ ((k : Int) < 0) := by omega
    by_cases hlt : k < table.length
    · have hget : getEntry table (k : Int) = (0, table[k]) := by
        simp [getEntry, hk, List.getElem?_eq_getElem hlt]
      have hnext : ((k : Int) + 1) = ((k + 1 : Nat) : Int) := by push_cast; rfl
      rw [enumerateFrom, hget, if_pos rfl, List.map_cons, hnext, ih (k + 1),
        List.drop_eq_getElem_cons hlt, List.take_succ_cons]
    · have hnone : table[k]? = none := List.getElem?_eq_none (by omega)
      have hget : getEntry table (k : Int) = (1, 0) := by
        simp [getEntry, hk, hnone]
      rw [enumerateFrom, hget, if_neg (by decide), List.drop_eq_nil_of_le (by omega)]
      simp

/-- The table of a plugin is in ascending order of the level. -/
theorem levelTable_sorted (levels : List ℚ) : (levelTable levels).Pairwise (· ≤ ·) := by
  have h := @List.sorted_mergeSort ℚ (fun a b : ℚ => decide (a ≤ b))
    (fun a b c hab hbc => by
      simp only [decide_eq_true_eq] at hab hbc ⊢
      exact le_trans hab hbc)
    (fun a b => by
      rcases le_total a b with h | h <;> simp [h])
    levels
  simpa [levelTable] using h

/-- Damping falls along a list exactly when the level rises along it. -/
theorem damping_antitone_iff (l : List ℚ) :
    (l.map damping).Pairwise (· ≥ ·) ↔ l.Pairwise (· ≤ ·) := by
  rw [List.pairwise_map]
  simp [damping]

/-- C7: the attenuation values an enumeration pass reads with `GetAttenuators` are
non-increasing in damping, which is the same as non-decreasing in value, and the gain values
read with `ExtIoGetMGCs` are non-decreasing. What a pass reads is the first 128 entries of
the table, and the table holds the levels of the hardware. -/
theorem C7_level_lists_ordered (levels : List ℚ) :
    (((enumerate Family.attenuators (GetAttenuators levels)).map Prod.snd).map
        damping).Pairwise (· ≥ ·) ∧
    ((enumerate Family.attenuators (GetAttenuators levels)).map Prod.snd).Pairwise (· ≤ ·) ∧
    ((enumerate Family.mgcs (ExtIoGetMGCs levels)).map Prod.snd).Pairwise (· ≤ ·) ∧
    (∀ l : List ℚ, (l.map damping).Pairwise (· ≥ ·) ↔ l.Pairwise (· ≤ ·)) ∧
    (enumerate Family.attenuators (GetAttenuators levels)).map Prod.snd
      = (levelTable levels).take 128 ∧
    (enumerate Family.mgcs (ExtIoGetMGCs levels)).map Prod.snd
      = (levelTable levels).take 128 ∧
    (levelTable levels).Perm levels := by
  have hatt : (enumerate Family.attenuators (GetAttenuators levels)).map Prod.snd
      = (levelTable levels).take 128 := by
    have := enumerateFrom_getEntry (levelTable levels) 128 0
    simpa [enumerate, GetAttenuators, Family.maxCount, EXTIO_MAX_ATT_GAIN_VALUES] using this
  have hmgc : (enumerate Family.mgcs (ExtIoGetMGCs levels)).map Prod.snd
      = (levelTable levels).take 128 := by
    have := enumerateFrom_getEntry (levelTable levels) 128 0
    simpa [enumerate, ExtIoGetMGCs, Family.maxCount, EXTIO_MAX_MGC_VALUES] using this
  have hs : ((levelTable levels).take 128).Pairwise (· ≤ ·) :=
    (levelTable_sorted levels).sublist (List.take_sublist _ _)
  refine ⟨?_, ?_, ?_, damping_antitone_iff, hatt, hmgc, ?_⟩
  · rw [damping_antitone_iff, hatt]; exact hs
  · rw [hatt]; exact hs
  · rw [hmgc]; exact hs
  · exact List.mergeSort_perm _ _

/-- C8: the maxima are 128 attenuation steps, 128 manual-gain steps, 32 sample rates, 16 AGC
modes and 1000 settings, and every index an enumeration pass over a family reads is at least
0 and strictly below the maximum of the family. -/
theorem C8_family_maxima :
    EXTIO_MAX_ATT_GAIN_VALUES = 128 ∧ EXTIO_MAX_MGC_VALUES = 128 ∧
    EXTIO_MAX_SRATE_VALUES = 32 ∧ EXTIO_MAX_AGC_VALUES = 16 ∧ maxSettingValues = 1000 ∧
    Family.attenuators.maxCount = 128 ∧ Family.mgcs.maxCount = 128 ∧
    Family.srates.maxCount = 32 ∧ Family.agcs.maxCount = 16 ∧
    Family.settings.maxCount = 1000 ∧
    (∀ (α : Type) (fam : Family) (get : Int → Int × α) (e : Int × α),
      e ∈ enumerate fam get → 0 ≤ e.1 ∧ e.1 < fam.maxCount) := by
  refine ⟨rfl, rfl, rfl, rfl, rfl, rfl, rfl, rfl, rfl, rfl, ?_⟩
  intro α fam get e h
  have := enumerateFrom_idx_bounds get fam.maxCount 0 e h
  omega

/-- Witness for C8: a getter with three AGC modes; idx 2 is read and is below 16. -/
theorem C8_family_maxima_witness :
    ((2 : Int), "FAST") ∈ enumerate Family.agcs
        (fun idx => (if idx < 3 then 0 else 1, if idx = 2 then "FAST" else "OTHER")) ∧
    ((0 : Int) ≤ 2 ∧ (2 : Int) < Family.agcs.maxCount) :=
  ⟨by decide,
   C8_family_maxima.2.2.2.2.2.2.2.2.2.2 String Family.agcs
     (fun idx => (if idx < 3 then 0 else 1, if idx = 2 then "FAST" else "OTHER"))
     ((2 : Int), "FAST") (by decide)⟩

/-! ### Sample formats and message codes -/

/-- C9, as stated, fails: neither the hwtype codes nor the status codes nor both together
select nine distinct sample formats. -/
theorem C9_counterexample :
    ¬ (hwtypeSampleFormats.length = 9) ∧ ¬ (statusSampleFormats.length = 9) ∧
    ¬ ((hwtypeSampleFormats ++ statusSampleFormats).dedup.length = 9) := by
  decide

/-- C9, amended: the hwtype codes select seven distinct sample formats (unsigned 8-bit,
signed 8-bit, 16-bit, 24-bit, 32-bit with 24-bit range, full 32-bit, 32-bit float), the
`extHw_SampleFormat_*` status codes select seven, and they are the same seven. -/
theorem C9_seven_sample_formats :
    hwtypeSampleFormats.length = 7 ∧ statusSampleFormats.length = 7 ∧
    (hwtypeSampleFormats ++ statusSampleFormats).dedup.length = 7 ∧
    (∀ f : SampleFormat, f ∈ hwtypeSampleFormats ↔ f ∈ statusSampleFormats) ∧
    (∀ f : SampleFormat, f ∈ hwtypeSampleFormats ↔ ∃ t : extHWtypeT, t.sampleFormat = some f) ∧
    (∀ f : SampleFormat,
      f ∈ statusSampleFormats ↔ ∃ c : extHWstatusT, c.sampleFormat = some f) := by
  refine ⟨by decide, by decide, by decide, ?_, ?_, ?_⟩
  · intro f
    have h : hwtypeSampleFormats.toFinset = statusSampleFormats.toFinset := by decide
    rw [← List.mem_toFinset, h, List.mem_toFinset]
  · intro f
    simp only [hwtypeSampleFormats, List.mem_dedup, List.mem_filterMap]
    constructor
    · rintro ⟨t, _, ht⟩; exact ⟨t, ht⟩
    · rintro ⟨t, ht⟩; exact ⟨t, extHWtypeT_mem_all t, ht⟩
  · intro f
    simp only [statusSampleFormats, List.mem_dedup, List.mem_filterMap]
    constructor
    · rintro ⟨c, _, hc⟩; exact ⟨c, hc⟩
    · rintro ⟨c, hc⟩; exact ⟨c, extHWstatusT_mem_all c, hc⟩

/-- C10, as stated, fails: the `extHw_MSG_*` status codes are not four. -/
theorem C10_counterexample : ¬ (msgCodes.length = 4) := by
  decide

/-- C10, amended: there are five `extHw_MSG_*` status codes, 148 to 152: error with dialog,
error, warning, log and debug; `msgCodes` lists each of them once. -/
theorem C10_five_msg_codes :
    msgCodes.length = 5 ∧ msgCodes.Nodup ∧
    msgCodes.map extHWstatusT.toInt = [148, 149, 150, 151, 152] ∧
    (∀ c : extHWstatusT, c ∈ msgCodes ↔ c.isMSG = true) ∧
    (∀ c : extHWstatusT, c.isMSG = true ↔ 148 ≤ c.toInt ∧ c.toInt ≤ 152) := by
  refine ⟨by decide, by decide, by decide, ?_, ?_⟩
  · intro c
    simp [msgCodes, List.mem_filter, extHWstatusT_mem_all]
  · intro c
    cases c <;> decide

/-! ### The transmit function -/

/-- C11, as stated, fails: the documented values of `status` are not three, and the fourth,
3 (continue), makes a well-formed call like the three before it. -/
theorem C11_counterexample :
    ¬ ((TxStatus.all.map TxStatus.toInt).dedup.length = 3) ∧
    TxSamples_wellFormed 0 512 1 = true ∧ TxSamples_wellFormed 1 0 NULL = true ∧
    TxSamples_wellFormed 2 0 NULL = true ∧ TxSamples_wellFormed 3 0 NULL = true := by
  decide

/-- C11, amended: the `status` argument of `TxSamples` takes exactly four values, 0 to 3,
and a call is well-formed exactly when either `status = 0` with `numIQsamples > 0` and a
non-NULL `interleavedIQ`, or `status` is 1, 2 or 3 with `numIQsamples = 0` and
`interleavedIQ = NULL`. -/
theorem C11_tx_status_values :
    TxStatus.all.map TxStatus.toInt = [0, 1, 2, 3] ∧
    (TxStatus.all.map TxStatus.toInt).Nodup ∧
    (∀ s : TxStatus, s ∈ TxStatus.all) ∧
    (∀ (status numIQsamples : Int) (interleavedIQ : VoidPtr),
      TxSamples_wellFormed status numIQsamples interleavedIQ = true ↔
        (status = 0 ∧ 0 < numIQsamples ∧ interleavedIQ ≠ NULL) ∨
        ((status = 1 ∨ status = 2 ∨ status = 3) ∧ numIQsamples = 0 ∧
          interleavedIQ = NULL)) := by
  refine ⟨rfl, by decide, fun s => by cases s <;> decide, ?_⟩
  intro status n p
  simp only [TxSamples_wellFormed, TxStatus.all, List.any_cons, List.any_nil, TxStatus.toInt,
    TxStatus.argsOk, Bool.or_false, Bool.or_eq_true, Bool.and_eq_true, beq_iff_eq,
    decide_eq_true_eq, bne_iff_ne, ne_eq]
  constructor
  · rintro (⟨h, h1, h2⟩ | ⟨h, h1, h2⟩ | ⟨h, h1, h2⟩ | ⟨h, h1, h2⟩)
    · exact Or.inl ⟨h.symm, h1, h2⟩
    · exact Or.inr ⟨Or.inl h.symm, h1, h2⟩
    · exact Or.inr ⟨Or.inr (Or.inl h.symm), h1, h2⟩
    · exact Or.inr ⟨Or.inr (Or.inr h.symm), h1, h2⟩
  · rintro (⟨h, h1, h2⟩ | ⟨h | h | h, h1, h2⟩)
    · exact Or.inl ⟨h.symm, h1, h2⟩
    · exact Or.inr (Or.inl ⟨h.symm, h1, h2⟩)
    · exact Or.inr (Or.inr (Or.inl ⟨h.symm, h1, h2⟩))
    · exact Or.inr (Or.inr (Or.inr ⟨h.symm, h1, h2⟩))

/-! ### Hardware types -/

/-- C12: the hwtype code 3 is `exthwUSBdata16`, whose samples come through the callback with
2 bytes per sample and values from -2^15 to 2^15-1, and the code 4, `exthwSCdata`, is the
only hwtype documented with samples from the sound card. Every hwtype with a documented
sample format delivers through the callback. -/
theorem C12_hwtype_push_and_pull :
    extHWtypeT.ofInt 3 = some extHWtypeT.exthwUSBdata16 ∧
    extHWtypeT.exthwUSBdata16.dataSource = some DataSource.callback ∧
    extHWtypeT.exthwUSBdata16.sampleFormat
      = some { bytes := 2, kind := SampleKind.signedInt, range := some (-2 ^ 15, 2 ^ 15 - 1) } ∧
    extHWtypeT.ofInt 4 = some extHWtypeT.exthwSCdata ∧
    (∀ t : extHWtypeT, t.dataSource = some DataSource.soundCard ↔ t = extHWtypeT.exthwSCdata) ∧
    (∀ t : extHWtypeT, t.dataSource = some DataSource.soundCard ↔ t.toInt = 4) ∧
    (∀ t : extHWtypeT, t.sampleFormat.isSome = true ↔ t.dataSource = some DataSource.callback) ∧
    (∀ t : extHWtypeT, extHWtypeT.ofInt t.toInt = some t) := by
  refine ⟨rfl, rfl, rfl, rfl, ?_, ?_, ?_, ?_⟩
  · intro t; cases t <;> simp [extHWtypeT.dataSource]
  · intro t; cases t <;> simp [extHWtypeT.dataSource, extHWtypeT.toInt]
  · intro t; cases t <;> simp [extHWtypeT.dataSource, extHWtypeT.sampleFormat]
  · intro t; cases t <;> rfl

/-! ### The values of the status codes -/

/-- Decoding the value of a status code gives the code back. -/
theorem extHWstatusT_ofInt_toInt (c : extHWstatusT) : extHWstatusT.ofInt c.toInt = some c := by
  cases c <;> rfl

/-- A value that decodes is the value of the code it decodes to. -/
theorem extHWstatusT_toInt_of_ofInt {n : Int} {c : extHWstatusT}
    (h : extHWstatusT.ofInt n = some c) : c.toInt = n := by
  have := List.find?_some h
  simpa using this

/-- Every value of the two ranges decodes. -/
theorem extHWstatusT_ofInt_isSome (n : Int)
    (h : (0 ≤ n ∧ n ≤ 4) ∨ (100 ≤ n ∧ n ≤ 152)) : (extHWstatusT.ofInt n).isSome = true := by
  rcases h with ⟨h1, h2⟩ | ⟨h1, h2⟩ <;> interval_cases n <;> rfl

/-- C13: the values of `extHWstatusT` are exactly 0..4 and 100..152: 58 codes, each value of
the two ranges is the value of exactly one code, no code has another value, although
`extHw_SampleFormat_PCMS8` (146) and `extHw_SampleFormat_PCM32` (147) are declared before the
codes 131..145. -/
theorem C13_status_value_set :
    extHWstatusT.all.length = 58 ∧ extHWstatusT.all.Nodup ∧
    (∀ c : extHWstatusT, c ∈ extHWstatusT.all) ∧
    (∀ n : Int, (∃ c : extHWstatusT, c.toInt = n) ↔ (0 ≤ n ∧ n ≤ 4) ∨ (100 ≤ n ∧ n ≤ 152)) ∧
    (∀ n : Int, (0 ≤ n ∧ n ≤ 4) ∨ (100 ≤ n ∧ n ≤ 152) → ∃! c : extHWstatusT, c.toInt = n) ∧
    (∀ c : extHWstatusT, (0 ≤ c.toInt ∧ c.toInt ≤ 4) ∨ (100 ≤ c.toInt ∧ c.toInt ≤ 152)) ∧
    ((extHWstatusT.all.map extHWstatusT.toInt).drop 36
      = [146, 147, 131, 132, 133, 134, 135, 136, 137, 138, 139, 140, 141, 142, 143, 144, 145,
         148, 149, 150, 151, 152]) ∧
    ((extHWstatusT.all.map extHWstatusT.toInt).take 36
      = [0, 1, 2, 3, 4, 100, 101, 102, 103, 104, 105, 106, 107, 108, 109, 110, 111, 112, 113,
         114, 115, 116, 117, 118, 119, 120, 121, 122, 123, 124, 125, 126, 127, 128, 129,
         130]) := by
  have hrange : ∀ c : extHWstatusT,
      (0 ≤ c.toInt ∧ c.toInt ≤ 4) ∨ (100 ≤ c.toInt ∧ c.toInt ≤ 152) := by
    intro c; cases c <;> decide
  have hinj : ∀ a b : extHWstatusT, a.toInt = b.toInt → a = b := by
    intro a b hab
    have h := extHWstatusT_ofInt_toInt a
    rw [hab, extHWstatusT_ofInt_toInt b] at h
    exact (Option.some.inj h).symm
  have hex : ∀ n : Int, (0 ≤ n ∧ n ≤ 4) ∨ (100 ≤ n ∧ n ≤ 152) →
      ∃ c : extHWstatusT, c.toInt = n := by
    intro n hn
    obtain ⟨c, hc⟩ := Option.isSome_iff_exists.mp (extHWstatusT_ofInt_isSome n hn)
    exact ⟨c, extHWstatusT_toInt_of_ofInt hc⟩
  refine ⟨rfl, by decide, extHWstatusT_mem_all, ?_, ?_, hrange, rfl, rfl⟩
  · intro n
    constructor
    · rintro ⟨c, rfl⟩; exact hrange c
    · exact hex n
  · intro n hn
    obtain ⟨c, hc⟩ := hex n hn
    exact ⟨c, hc, fun d hd => hinj d c (hd.trans hc.symm)⟩

/-- Witness for C13: the value 146 is the value of `extHw_SampleFormat_PCMS8` alone. -/
theorem C13_status_value_set_witness :
    ((100 : Int) ≤ 146 ∧ (146 : Int) ≤ 152) ∧ ∃! c : extHWstatusT, c.toInt = 146 :=
  ⟨by decide, C13_status_value_set.2.2.2.2.1 146 (Or.inr (by decide))⟩

/-! ### Sample-format codes and hardware types -/

/-- C14: the correspondence the header gives between the `extHw_SampleFormat_*` status codes
and the hwtype codes is a bijection between the seven status codes and the seven hwtype
codes 3, 5, 6, 7, 9, 10, 11 whose samples come through the callback, and a status code and its
hwtype have the same bytes per sample and the same range of values. -/
theorem C14_sample_format_correspondence :
    sampleFormatCodes.length = 7 ∧ callbackHwTypes.length = 7 ∧
    callbackHwTypes.map extHWtypeT.toInt = [3, 5, 6, 7, 9, 10, 11] ∧
    sampleFormatCodes.map extHWstatusT.asHwType
      = [some extHWtypeT.exthwUSBdataU8, some extHWtypeT.exthwUSBdata16,
         some extHWtypeT.exthwUSBdata24, some extHWtypeT.exthwUSBdata32,
         some extHWtypeT.exthwUSBfloat32, some extHWtypeT.exthwUSBdataS8,
         some extHWtypeT.exthwFullPCM32] ∧
    (∀ c : extHWstatusT, c.asHwType.isSome = true ↔ c ∈ sampleFormatCodes) ∧
    (∀ (c d : extHWstatusT) (t : extHWtypeT),
      c.asHwType = some t → d.asHwType = some t → c = d) ∧
    (∀ t : extHWtypeT,
      (∃ c : extHWstatusT, c.asHwType = some t) ↔ t ∈ callbackHwTypes) ∧
    (∀ (c : extHWstatusT) (t : extHWtypeT), c.asHwType = some t →
      ∃ f g : SampleFormat, c.sampleFormat = some f ∧ t.sampleFormat = some g ∧
        f.bytes = g.bytes ∧ f.range = g.range ∧ f = g) := by
  refine ⟨by decide, by decide, by decide, by decide, ?_, ?_, ?_, ?_⟩
  · intro c; cases c <;> decide
  · intro c d t hc hd
    cases c <;> simp [extHWstatusT.asHwType] at hc <;> subst hc <;>
      cases d <;> simp [extHWstatusT.asHwType] at hd <;> rfl
  · intro t
    constructor
    · rintro ⟨c, hc⟩
      cases c <;> simp [extHWstatusT.asHwType] at hc <;> subst hc <;> decide
    · intro ht
      cases t <;> first
        | exact ⟨extHWstatusT.extHw_SampleFormat_PCMU8, rfl⟩
        | exact ⟨extHWstatusT.extHw_SampleFormat_PCM16, rfl⟩
        | exact ⟨extHWstatusT.extHw_SampleFormat_PCM24, rfl⟩
        | exact ⟨extHWstatusT.extHw_SampleFormat_PCM2432, rfl⟩
        | exact ⟨extHWstatusT.extHw_SampleFormat_FLT32, rfl⟩
        | exact ⟨extHWstatusT.extHw_SampleFormat_PCMS8, rfl⟩
        | exact ⟨extHWstatusT.extHw_SampleFormat_PCM32, rfl⟩
        | exact absurd ht (by decide)
  · intro c t hc
    cases c <;> simp [extHWstatusT.asHwType] at hc <;> subst hc <;>
      exact ⟨_, _, rfl, rfl, rfl, rfl, rfl⟩

/-- Witness for C14: `extHw_SampleFormat_PCM2432` goes with `exthwUSBdata32`. -/
theorem C14_sample_format_correspondence_witness :
    extHWstatusT.extHw_SampleFormat_PCM2432.asHwType = some extHWtypeT.exthwUSBdata32 ∧
    ∃ f g : SampleFormat,
      extHWstatusT.extHw_SampleFormat_PCM2432.sampleFormat = some f ∧
      extHWtypeT.exthwUSBdata32.sampleFormat = some g ∧
      f.bytes = g.bytes ∧ f.range = g.range ∧ f = g :=
  ⟨rfl, C14_sample_format_correspondence.2.2.2.2.2.2.2
    extHWstatusT.extHw_SampleFormat_PCM2432 extHWtypeT.exthwUSBdata32 rfl⟩

/-- C15: the documented range of every integer sample format fits its container: for a
signed format of `b` bytes it lies in `-2^(8b-1) .. 2^(8b-1)-1`, the unsigned format has one
byte and lies in `0 .. 2^8-1`. The range is the full range of the container for every format
but the 4-byte `exthwUSBdata32` / `extHw_SampleFormat_PCM2432`, whose range
`-2^23 .. 2^23-1` is that of 24 bits and lies strictly inside that of `exthwFullPCM32`. -/
theorem C15_ranges_fit_containers :
    (∀ (t : extHWtypeT) (f : SampleFormat) (lo hi : Int),
      t.sampleFormat = some f → f.range = some (lo, hi) →
        (f.kind = SampleKind.signedInt →
          -2 ^ (8 * f.bytes - 1) ≤ lo ∧ hi ≤ 2 ^ (8 * f.bytes - 1) - 1) ∧
        (f.kind = SampleKind.unsignedInt → f.bytes = 1 ∧ 0 ≤ lo ∧ hi ≤ 2 ^ 8 - 1) ∧
        f.kind ≠ SampleKind.float ∧ lo ≤ hi ∧
        (f.range = f.containerRange ↔ t ≠ extHWtypeT.exthwUSBdata32)) ∧
    (∀ (c : extHWstatusT) (f : SampleFormat) (lo hi : Int),
      c.sampleFormat = some f → f.range = some (lo, hi) →
        (f.kind = SampleKind.signedInt →
          -2 ^ (8 * f.bytes - 1) ≤ lo ∧ hi ≤ 2 ^ (8 * f.bytes - 1) - 1) ∧
        (f.kind = SampleKind.unsignedInt → f.bytes = 1 ∧ 0 ≤ lo ∧ hi ≤ 2 ^ 8 - 1) ∧
        f.kind ≠ SampleKind.float ∧ lo ≤ hi ∧
        (f.range = f.containerRange ↔ c ≠ extHWstatusT.extHw_SampleFormat_PCM2432)) ∧
    (extHWtypeT.exthwUSBdata32.sampleFormat
        = some { bytes := 4, kind := SampleKind.signedInt, range := some (-2 ^ 23, 2 ^ 23 - 1) } ∧
      extHWtypeT.exthwUSBdata32.sampleFormat
        = extHWstatusT.extHw_SampleFormat_PCM2432.sampleFormat ∧
      (extHWtypeT.exthwUSBdata24.sampleFormat.bind SampleFormat.containerRange)
        = some (-2 ^ 23, 2 ^ 23 - 1) ∧
      (extHWtypeT.exthwFullPCM32.sampleFormat.bind SampleFormat.range)
        = some (-2 ^ 31, 2 ^ 31 - 1) ∧
      Set.Icc (-2 ^ 23 : Int) (2 ^ 23 - 1) ⊂ Set.Icc (-2 ^ 31 : Int) (2 ^ 31 - 1)) := by
  refine ⟨?_, ?_, rfl, rfl, by decide, by decide, ?_⟩
  · intro t f lo hi hf hr
    cases t <;> simp [extHWtypeT.sampleFormat] at hf <;> subst hf <;>
      simp at hr <;> obtain ⟨rfl, rfl⟩ := hr <;>
      simp [SampleFormat.containerRange]
  · intro c f lo hi hf hr
    cases c <;> simp [extHWstatusT.sampleFormat] at hf <;> subst hf <;>
      simp at hr <;> obtain ⟨rfl, rfl⟩ := hr <;>
      simp [SampleFormat.containerRange]
  · rw [Set.ssubset_iff_of_subset (Set.Icc_subset_Icc (by norm_num) (by norm_num))]
    exact ⟨2 ^ 31 - 1, by norm_num [Set.mem_Icc], by norm_num [Set.mem_Icc]⟩

/-- Witness for C15: the 16-bit format of `exthwUSBdata16`. -/
theorem C15_ranges_fit_containers_witness :
    extHWtypeT.exthwUSBdata16.sampleFormat
      = some { bytes := 2, kind := SampleKind.signedInt, range := some (-2 ^ 15, 2 ^ 15 - 1) } ∧
    (-2 ^ (8 * 2 - 1) ≤ (-2 ^ 15 : Int) ∧ (2 ^ 15 - 1 : Int) ≤ 2 ^ (8 * 2 - 1) - 1) :=
  ⟨rfl, (C15_ranges_fit_containers.1 extHWtypeT.exthwUSBdata16
    { bytes := 2, kind := SampleKind.signedInt, range := some (-2 ^ 15, 2 ^ 15 - 1) }
    (-2 ^ 15) (2 ^ 15 - 1) rfl rfl).1 rfl⟩

/-! ### The version gate -/

/-- C16: the version gate of the header holds exactly for the program name "HDSDR" with a
version `(ver_major, ver_minor)` at or above `(2, m)` in lexicographic order; so it is
monotone in the version and in `m`, and a host that passes the gate of `extHw_Changed_MGC`
(2.60) passes the gate of the codes 116 to 125 (2.13). -/
theorem C16_version_gate_lexicographic :
    (∀ (m : Int) (progname : String) (ver_major ver_minor : Int),
      versionGate m progname ver_major ver_minor = true ↔
        progname = "HDSDR" ∧ toLex ((2 : Int), m) ≤ toLex (ver_major, ver_minor)) ∧
    (∀ (m : Int) (progname : String) (a b c d : Int),
      versionGate m progname a b = true → toLex (a, b) ≤ toLex (c, d) →
        versionGate m progname c d = true) ∧
    (∀ (m n : Int) (progname : String) (a b : Int),
      n ≤ m → versionGate m progname a b = true → versionGate n progname a b = true) ∧
    (∀ (progname : String) (a b : Int),
      versionGate 60 progname a b = true → versionGate 13 progname a b = true) ∧
    extHWstatusT.extHw_Changed_MGC.gateMinor = some 60 ∧
    (∀ c : extHWstatusT, c.gateMinor = some 13 ↔ 116 ≤ c.toInt ∧ c.toInt ≤ 125) ∧
    (∀ c : extHWstatusT, c.gateMinor = some 60 ↔ c = extHWstatusT.extHw_Changed_MGC) ∧
    (∀ (c : extHWstatusT) (m n : Int) (progname : String) (a b : Int),
      extHWstatusT.extHw_Changed_MGC.gateMinor = some m → c.gateMinor = some n →
        versionGate m progname a b = true → versionGate n progname a b = true) := by
  have hiff : ∀ (m : Int) (progname : String) (ver_major ver_minor : Int),
      versionGate m progname ver_major ver_minor = true ↔
        progname = "HDSDR" ∧ toLex ((2 : Int), m) ≤ toLex (ver_major, ver_minor) := by
    intro m p a b
    rw [Prod.Lex.le_iff]
    simp only [versionGate, Bool.and_eq_true, Bool.or_eq_true, beq_iff_eq, decide_eq_true_eq,
      gt_iff_lt, ge_iff_le]
    constructor
    · rintro ⟨h, h1 | ⟨h1, h2⟩⟩
      · exact ⟨h, Or.inl h1⟩
      · exact ⟨h, Or.inr ⟨h1.symm, h2⟩⟩
    · rintro ⟨h, h1 | ⟨h1, h2⟩⟩
      · exact ⟨h, Or.inl h1⟩
      · exact ⟨h, Or.inr ⟨h1.symm, h2⟩⟩
  have hm : ∀ (m n : Int) (progname : String) (a b : Int),
      n ≤ m → versionGate m progname a b = true → versionGate n progname a b = true := by
    intro m n p a b hnm h
    rw [hiff, Prod.Lex.le_iff] at h ⊢
    obtain ⟨hp, h1 | ⟨h1, h2⟩⟩ := h
    · exact ⟨hp, Or.inl h1⟩
    · exact ⟨hp, Or.inr ⟨h1, le_trans hnm h2⟩⟩
  refine ⟨hiff, ?_, hm, fun p a b => hm 60 13 p a b (by decide), rfl, ?_, ?_, ?_⟩
  · intro m p a b c d h hle
    rw [hiff] at h ⊢
    exact ⟨h.1, le_trans h.2 hle⟩
  · intro c; cases c <;> decide
  · intro c; cases c <;> decide
  · intro c m n p a b hm60 hn h
    have h60 : m = 60 := by
      have : extHWstatusT.extHw_Changed_MGC.gateMinor = some 60 := rfl
      rw [this] at hm60
      exact (Option.some.inj hm60).symm
    subst h60
    have hn2 : n ≤ 60 := by
      cases c <;> simp [extHWstatusT.gateMinor] at hn <;> omega
    exact hm 60 n p a b hn2 h

/-- Witness for C16: HDSDR 2.70 passes the gate 2.60 and so the gate 2.13. -/
theorem C16_version_gate_lexicographic_witness :
    versionGate 60 "HDSDR" 2 70 = true ∧ versionGate 13 "HDSDR" 2 70 = true :=
  ⟨by decide, C16_version_gate_lexicographic.2.2.2.1 "HDSDR" 2 70 (by decide)⟩

end ExtIO
